import Mathlib

/-!
# Verification of the klemme serial I/O coordination engine

Shallow embedding of the core logic of the `klemme` serial-port monitor:

* `src/portthread.rs` — the I/O coordinator: lifecycle state machine,
  command processing, the write/read cycle (`send_receive`) and the
  time-windowed coalescing algorithm (`handle_received_bytes`).
* `src/analyzer_mode.rs` — the cursor movement helpers and the
  multi-width/multi-endianness decode engine of `render_analyzer`.
* `src/interactive_mode.rs` — the hex input-mode conversion
  (`apply_input_mode`).

Timestamps are modelled as integer milliseconds.  Bytes are `Nat`s
(values `< 256` wherever the code produces them).  The external serial
transport is modelled as an oracle: the outcome of one `write` is a
`Bool`, the outcome of one `read` is `Option (List Nat)` (`none` for a
failed/timed-out read, `some bytes` for an `Ok` read).  Rust functions
that can panic are embedded as `Option`-valued functions, `none`
standing for the panic.
-/

namespace Klemme

/-- Direction tag of a history entry (`RxTx` in `portthread.rs`). -/
inductive RxTx where
  | Rx : RxTx
  | Tx : RxTx
deriving DecidableEq, Repr

/-- One timestamped traffic record (`HistoryEntry` in `portthread.rs`).
The timestamp is in integer milliseconds. -/
structure HistoryEntry where
  timestamp : Int
  rx_tx : RxTx
  data : List Nat
deriving DecidableEq, Repr

/-- Transport context (`SerialContext`): identifying name plus an optional
open handle.  The handle itself carries no information in the model. -/
structure SerialContext where
  port_name : String
  com_port : Option Unit
deriving DecidableEq, Repr

/-- Lifecycle state of the coordinator (`PortThreadState`). -/
inductive PortThreadState where
  | Stopped : PortThreadState
  | Running : SerialContext → PortThreadState
deriving DecidableEq, Repr

/-- The Rust `PartialEq` on `PortThreadState` compares tags only; guards
in the coordinator only ever compare against `Stopped`, which this
predicate captures. -/
def PortThreadState.isStopped : PortThreadState → Bool
  | .Stopped => true
  | .Running _ => false

/-- Commands sent from the front end to the coordinator (`SerialCommand`). -/
inductive SerialCommand where
  | Stop : SerialCommand
  | Start : SerialContext → SerialCommand
  | Send : List Nat → SerialCommand
deriving DecidableEq, Repr

/-- Events emitted by the coordinator (`SerialStateMessage`). -/
inductive SerialStateMessage where
  | DataEvent : HistoryEntry → SerialStateMessage
  | ErrorEvent : String → SerialStateMessage
  | Started : SerialStateMessage
  | Stopped : SerialStateMessage
deriving DecidableEq, Repr

/-- Coalescing step (`handle_received_bytes` in `portthread.rs`).

A fresh entry is built from the received chunk at the current time
`now`; if fewer than 5 ms separate it from the pending entry the chunk
is appended to the pending data (timestamp untouched), otherwise the
pending entry is emitted as a `DataEvent` and replaced by the new chunk
with timestamp `now`.  Returns the new pending entry and the emitted
events. -/
def handle_received_bytes (now : Int) (last_entry : HistoryEntry)
    (received_data : List Nat) : HistoryEntry × List SerialStateMessage :=
  let entry : HistoryEntry := { timestamp := now, rx_tx := RxTx.Rx, data := received_data }
  let ms := entry.timestamp - last_entry.timestamp
  if ms < 5 then
    ({ last_entry with data := last_entry.data ++ entry.data }, [])
  else
    ({ last_entry with data := entry.data, timestamp := now },
     [SerialStateMessage.DataEvent last_entry])

/-- One write/read cycle while running (`send_receive` in `portthread.rs`).

`writeOk` is the transport's answer to the single attempted write;
`readResult` is the outcome of the single bounded read (`none` for a
timed-out/failed read).  Returns the updated pending entry and the
events of this cycle, in emission order. -/
def send_receive (ctx : SerialContext) (last_entry : HistoryEntry)
    (data_to_send : List Nat) (writeOk : Bool) (readResult : Option (List Nat))
    (now : Int) : HistoryEntry × List SerialStateMessage :=
  match ctx.com_port with
  | none => (last_entry, [])
  | some _ =>
    let writeEvents : List SerialStateMessage :=
      if data_to_send.length ≠ 0 then
        if writeOk then
          [SerialStateMessage.DataEvent
            { timestamp := now, rx_tx := RxTx.Tx, data := data_to_send }]
        else
          [SerialStateMessage.ErrorEvent "Failed to write to port"]
      else []
    match readResult with
    | none => (last_entry, writeEvents)
    | some bytes =>
      let r := handle_received_bytes now last_entry bytes
      (r.1, writeEvents ++ r.2)

/-- Command processing of the coordinator loop (the `match cmd` block of
`port_background_thread`).  Returns the new lifecycle state, the events
emitted by the transition, and the bytes queued for this iteration's
write (`data_to_send`). -/
def apply_command (state : PortThreadState) (cmd : SerialCommand) :
    PortThreadState × List SerialStateMessage × List Nat :=
  match cmd with
  | SerialCommand.Send data => (state, [], data)
  | SerialCommand.Stop =>
    if state.isStopped then (state, [], [])
    else (PortThreadState.Stopped, [SerialStateMessage.Stopped], [])
  | SerialCommand.Start ctx =>
    if state.isStopped then (PortThreadState.Running ctx, [SerialStateMessage.Started], [])
    else (state, [], [])

/-- Persistent state of the coordinator loop: lifecycle state and the
pending coalescing entry. -/
structure LoopState where
  state : PortThreadState
  last_entry : HistoryEntry
deriving DecidableEq, Repr

/-- One iteration of the coordinator loop (`port_background_thread`):
`data_to_send` starts empty, the received command (if any) is applied,
and if the resulting state is running one `send_receive` cycle is
performed.  Returns the new loop state and the events of the iteration
in emission order. -/
def loop_step (s : LoopState) (cmd : Option SerialCommand) (writeOk : Bool)
    (readResult : Option (List Nat)) (now : Int) :
    LoopState × List SerialStateMessage :=
  let c := match cmd with
    | none => (s.state, ([] : List SerialStateMessage), ([] : List Nat))
    | some c => apply_command s.state c
  match c.1 with
  | PortThreadState.Stopped => ({ state := c.1, last_entry := s.last_entry }, c.2.1)
  | PortThreadState.Running ctx =>
    let r := send_receive ctx s.last_entry c.2.2 writeOk readResult now
    ({ state := c.1, last_entry := r.1 }, c.2.1 ++ r.2)

/-- Byte-order toggle of the analyzer (`Endianness` in `analyzer_mode.rs`). -/
inductive Endianness where
  | Big : Endianness
  | Little : Endianness
deriving DecidableEq, Repr

/-- `cursor_left` of `AnalyzerMode`: `saturating_sub(1)` on the cursor
position (`Nat` subtraction saturates at 0 exactly like `usize::saturating_sub`). -/
def cursor_left (analyzer_cursor_pos : Nat) : Nat :=
  analyzer_cursor_pos - 1

/-- `cursor_right` of `AnalyzerMode`: an unconditional increment of the
cursor position; the function has no access to the payload length. -/
def cursor_right (analyzer_cursor_pos : Nat) : Nat :=
  analyzer_cursor_pos + 1

/-- Little-endian value of a byte list, least significant byte first
(`uN::from_le_bytes`).  Bytes are reduced mod 256 as in the machine
representation. -/
def le_bytes : List Nat → Nat
  | [] => 0
  | b :: rest => b % 256 + 256 * le_bytes rest

/-- Big-endian value of a byte list, most significant byte first
(`uN::from_be_bytes`). -/
def be_bytes (l : List Nat) : Nat :=
  le_bytes l.reverse

/-- Two's-complement reinterpretation of a `w`-bit unsigned value
(`iN::from_*_bytes` applied to the same bytes as `uN::from_*_bytes`). -/
def toSigned (w : Nat) (n : Nat) : Int :=
  if n < 2 ^ (w - 1) then (n : Int) else (n : Int) - 2 ^ w

/-- One line of the analyzer panel.  Floating-point interpretations are
represented by their bit pattern (the byte reinterpretation performed by
`f32::from_*_bytes` / `f64::from_le_bytes`); their decimal rendering is
display-only. -/
inductive AnalyzerItem where
  | binary : Nat → AnalyzerItem
  | u8 : Nat → AnalyzerItem
  | u16 : Nat → AnalyzerItem
  | i16 : Int → AnalyzerItem
  | u32 : Nat → AnalyzerItem
  | i32 : Int → AnalyzerItem
  | f32bits : Nat → AnalyzerItem
  | u64 : Nat → AnalyzerItem
  | i64 : Int → AnalyzerItem
  | f64bits : Nat → AnalyzerItem
deriving DecidableEq, Repr

/-- The decode engine of `render_analyzer` in `analyzer_mode.rs`: the
list of interpretations offered for `analyzer_data` at cursor position
`pos` under the selected endianness, in the order the code pushes them.

Mirrors the source: nothing if the cursor is at or past the end;
otherwise the binary/8-bit tier from the byte at the cursor, the 16-bit
tier when `pos ≤ len − 2` (checked in `i32` arithmetic, hence on `Int`),
the 32-bit tier when `pos ≤ len − 4`, both per selected endianness, and
the 64-bit tier when `pos ≤ len − 8`, always little-endian
(`from_le_bytes` regardless of the toggle). -/
def render_analyzer_items (endianness : Endianness) (analyzer_data : List Nat)
    (pos : Nat) : List AnalyzerItem :=
  if analyzer_data.length ≤ pos then []
  else
    let one_byte := (analyzer_data.drop pos).headD 0
    [AnalyzerItem.binary one_byte, AnalyzerItem.u8 one_byte]
    ++ (if (pos : Int) ≤ (analyzer_data.length : Int) - 2 then
        let two_bytes := (analyzer_data.drop pos).take 2
        let v := if endianness = Endianness.Big then be_bytes two_bytes
                 else le_bytes two_bytes
        [AnalyzerItem.u16 v, AnalyzerItem.i16 (toSigned 16 v)]
      else [])
    ++ (if (pos : Int) ≤ (analyzer_data.length : Int) - 4 then
        let four_bytes := (analyzer_data.drop pos).take 4
        let v := if endianness = Endianness.Big then be_bytes four_bytes
                 else le_bytes four_bytes
        [AnalyzerItem.u32 v, AnalyzerItem.i32 (toSigned 32 v), AnalyzerItem.f32bits v]
      else [])
    ++ (if (pos : Int) ≤ (analyzer_data.length : Int) - 8 then
        let eight_bytes := (analyzer_data.drop pos).take 8
        let v := le_bytes eight_bytes
        [AnalyzerItem.u64 v, AnalyzerItem.i64 (toSigned 64 v), AnalyzerItem.f64bits v]
      else [])

/-- Whether an analyzer line belongs to the 64-bit tier. -/
def AnalyzerItem.is64 : AnalyzerItem → Bool
  | .u64 _ => true
  | .i64 _ => true
  | .f64bits _ => true
  | _ => false

/-- Input mode of the interactive send line (`InputMode` in
`interactive_mode.rs`). -/
inductive InputMode where
  | Default : InputMode
  | Hex : InputMode
deriving DecidableEq, Repr

/-- Rust's `char::to_digit(16)` on an ASCII byte: `0`–`9`, `a`–`f`,
`A`–`F`; `none` otherwise. -/
def to_digit16 (b : Nat) : Option Nat :=
  if 48 ≤ b ∧ b ≤ 57 then some (b - 48)
  else if 97 ≤ b ∧ b ≤ 102 then some (b - 87)
  else if 65 ≤ b ∧ b ≤ 70 then some (b - 55)
  else none

/-- `two_hex_bytes_to_char` followed by the `as u8` cast at the call
site: `(b0 << 4) + b1` (no overflow for nibbles, and the `char`
round-trip is the identity on byte values). -/
def two_hex_bytes_to_byte (b0 b1 : Nat) : Nat :=
  (b0 * 16 + b1) % 256

/-- `usize::MAX + 1`, for modelling wrapping `usize` arithmetic. -/
def USIZE : Nat := 2 ^ 64

/-- The `while idx < send_buffer.len() - 1` loop of `apply_input_mode`
(`interactive_mode.rs`, duplicated in `main.rs`).  The loop bound
`len - 1` is wrapping `usize` subtraction, so an empty buffer yields the
bound `2^64 - 1` and the subsequent indexing is out of bounds — modelled
as `none`, like the `unwrap` panic on a non-hex-digit byte. -/
def apply_input_mode_loop (send_buffer : List Nat) (new_buffer : List Nat)
    (idx : Nat) : Option (List Nat) :=
  if _h1 : idx < (send_buffer.length + USIZE - 1) % USIZE then
    if h2 : idx < send_buffer.length then
      if send_buffer.get ⟨idx, h2⟩ = 32 then
        apply_input_mode_loop send_buffer new_buffer (idx + 1)
      else
        match to_digit16 (send_buffer.get ⟨idx, h2⟩),
              (send_buffer.getD (idx + 1) 0 |> to_digit16) with
        | some b0, some b1 =>
          apply_input_mode_loop send_buffer
            (new_buffer ++ [two_hex_bytes_to_byte b0 b1]) (idx + 2)
        | _, _ => none
    else none
  else some new_buffer
termination_by send_buffer.length - idx
decreasing_by all_goals omega

/-- `apply_input_mode`: in `Hex` mode, rebuild the send buffer by
pairing hex digits; in `Default` mode, leave it unchanged.  `none`
models a panic. -/
def apply_input_mode (input_mode : InputMode) (send_buffer : List Nat) :
    Option (List Nat) :=
  match input_mode with
  | InputMode.Default => some send_buffer
  | InputMode.Hex => apply_input_mode_loop send_buffer [] 0

/-- Whether a byte is an ASCII hex digit (the guard under which the hex
conversion's digit lookups succeed). -/
def isHexDigitByte (b : Nat) : Bool :=
  (to_digit16 b).isSome

/-- Expected result of the hex conversion on a buffer of complete
hex-digit pairs: consecutive digits are paired, high nibble first. -/
def pair_hex_digits : List Nat → List Nat
  | hi :: lo :: rest =>
    two_hex_bytes_to_byte ((to_digit16 hi).getD 0) ((to_digit16 lo).getD 0)
      :: pair_hex_digits rest
  | _ => []

/-! ## Coalescing (portthread.rs) -/

/-- C1 — counterexample to the claim as stated: with an *empty* pending
entry and a gap of 20 ms ≥ 5 ms, `handle_received_bytes` still emits the
pending entry as a `DataEvent`; the claim required an event only for a
non-empty pending entry. -/
theorem C1_counterexample :
    (5 : Int) ≤ 20 - (0 : Int) ∧
    ({ timestamp := 0, rx_tx := RxTx.Rx, data := [] } : HistoryEntry).data = [] ∧
    (handle_received_bytes 20 { timestamp := 0, rx_tx := RxTx.Rx, data := [] } [7]).2 =
      [SerialStateMessage.DataEvent { timestamp := 0, rx_tx := RxTx.Rx, data := [] }] := by
  exact ⟨by decide, rfl, rfl⟩

/-- C1 (amended) — coalescing: for every pending entry `p`, chunk `c`
and time `t`, if `t − p.timestamp < 5` ms the chunk is appended to the
pending data with the timestamp unchanged and no event; otherwise the
previous pending entry is emitted unconditionally (even when empty) as
exactly one `DataEvent` and `c` becomes the new pending data with
timestamp `t`. -/
theorem C1_coalescing (p : HistoryEntry) (c : List Nat) (t : Int) :
    (t - p.timestamp < 5 →
      handle_received_bytes t p c = ({ p with data := p.data ++ c }, [])) ∧
    (5 ≤ t - p.timestamp →
      handle_received_bytes t p c =
        ({ p with data := c, timestamp := t }, [SerialStateMessage.DataEvent p])) := by
  constructor
  · intro h
    simp [handle_received_bytes, h]
  · intro h
    simp [handle_received_bytes, show ¬ t - p.timestamp < 5 by omega]

/-- C1 — witness: the spec's burst scenario `[01 02 03]`@0 ms,
`[04 05 06]`@3 ms, `[07]`@20 ms, starting from an empty pending entry. -/
theorem C1_coalescing_witness :
    handle_received_bytes 0 { timestamp := 0, rx_tx := RxTx.Rx, data := [] } [1, 2, 3] =
      ({ timestamp := 0, rx_tx := RxTx.Rx, data := [1, 2, 3] }, []) ∧
    handle_received_bytes 3 { timestamp := 0, rx_tx := RxTx.Rx, data := [1, 2, 3] } [4, 5, 6] =
      ({ timestamp := 0, rx_tx := RxTx.Rx, data := [1, 2, 3, 4, 5, 6] }, []) ∧
    handle_received_bytes 20
        { timestamp := 0, rx_tx := RxTx.Rx, data := [1, 2, 3, 4, 5, 6] } [7] =
      ({ timestamp := 20, rx_tx := RxTx.Rx, data := [7] },
       [SerialStateMessage.DataEvent
         { timestamp := 0, rx_tx := RxTx.Rx, data := [1, 2, 3, 4, 5, 6] }]) := by
  refine ⟨?_, ?_, ?_⟩
  · exact (C1_coalescing { timestamp := 0, rx_tx := RxTx.Rx, data := [] } [1, 2, 3] 0).1
      (by decide)
  · exact (C1_coalescing { timestamp := 0, rx_tx := RxTx.Rx, data := [1, 2, 3] } [4, 5, 6] 3).1
      (by decide)
  · exact (C1_coalescing
      { timestamp := 0, rx_tx := RxTx.Rx, data := [1, 2, 3, 4, 5, 6] } [7] 20).2 (by decide)

/-! ## Lifecycle and command processing (portthread.rs) -/

/-- C2 — lifecycle transitions: `Start(ctx)` while Stopped moves to
`Running(ctx)` and emits exactly `Started`; `Start` while Running
changes nothing (new context discarded) and emits nothing; `Stop` while
Running moves to Stopped and emits exactly `Stopped`; `Stop` while
Stopped changes nothing and emits nothing. -/
theorem C2_lifecycle (ctx ctxR newCtx : SerialContext) :
    apply_command PortThreadState.Stopped (SerialCommand.Start ctx) =
      (PortThreadState.Running ctx, [SerialStateMessage.Started], []) ∧
    apply_command (PortThreadState.Running ctxR) (SerialCommand.Start newCtx) =
      (PortThreadState.Running ctxR, [], []) ∧
    apply_command (PortThreadState.Running ctxR) SerialCommand.Stop =
      (PortThreadState.Stopped, [SerialStateMessage.Stopped], []) ∧
    apply_command PortThreadState.Stopped SerialCommand.Stop =
      (PortThreadState.Stopped, [], []) :=
  ⟨rfl, rfl, rfl, rfl⟩

/-- C3 — write path: in the Running state with non-empty queued bytes
and a timed-out read, a failed write yields exactly one `ErrorEvent`
with the fixed message and no `DataEvent`, the bytes are dropped and the
state stays Running; a successful write yields exactly one `Tx`
`DataEvent` carrying the bytes; with an empty queue no write event is
produced at all. -/
theorem C3_write_path (pn : String) (le : HistoryEntry) (data : List Nat)
    (now : Int) (h : data ≠ []) :
    loop_step { state := PortThreadState.Running { port_name := pn, com_port := some () },
                last_entry := le }
        (some (SerialCommand.Send data)) false none now =
      ({ state := PortThreadState.Running { port_name := pn, com_port := some () },
         last_entry := le },
       [SerialStateMessage.ErrorEvent "Failed to write to port"]) ∧
    loop_step { state := PortThreadState.Running { port_name := pn, com_port := some () },
                last_entry := le }
        (some (SerialCommand.Send data)) true none now =
      ({ state := PortThreadState.Running { port_name := pn, com_port := some () },
         last_entry := le },
       [SerialStateMessage.DataEvent { timestamp := now, rx_tx := RxTx.Tx, data := data }]) ∧
    (∀ w : Bool,
      send_receive { port_name := pn, com_port := some () } le [] w none now = (le, [])) := by
  refine ⟨?_, ?_, ?_⟩
  · simp [loop_step, apply_command, send_receive, PortThreadState.isStopped, h]
  · simp [loop_step, apply_command, send_receive, PortThreadState.isStopped, h]
  · intro w
    simp [send_receive]

/-- C3 — witness at a concrete failed and successful write. -/
theorem C3_write_path_witness :
    loop_step { state := PortThreadState.Running { port_name := "p", com_port := some () },
                last_entry := { timestamp := 0, rx_tx := RxTx.Rx, data := [] } }
        (some (SerialCommand.Send [1])) false none 7 =
      ({ state := PortThreadState.Running { port_name := "p", com_port := some () },
         last_entry := { timestamp := 0, rx_tx := RxTx.Rx, data := [] } },
       [SerialStateMessage.ErrorEvent "Failed to write to port"]) :=
  (C3_write_path "p" { timestamp := 0, rx_tx := RxTx.Rx, data := [] } [1] 7
    (by decide)).1

/-- C4 — send while stopped: a `Send(bytes)` consumed in the Stopped
state leaves the loop state unchanged and emits no event, and since the
resulting loop state equals the original, every later iteration
(including a later `Start`) behaves exactly as if the `Send` had never
happened — the bytes are not retained. -/
theorem C4_send_while_stopped (le : HistoryEntry) (bytes : List Nat)
    (w : Bool) (r : Option (List Nat)) (now : Int) :
    loop_step { state := PortThreadState.Stopped, last_entry := le }
        (some (SerialCommand.Send bytes)) w r now =
      ({ state := PortThreadState.Stopped, last_entry := le }, []) ∧
    (∀ (cmd2 : Option SerialCommand) (w2 : Bool) (r2 : Option (List Nat)) (now2 : Int),
      loop_step (loop_step { state := PortThreadState.Stopped, last_entry := le }
          (some (SerialCommand.Send bytes)) w r now).1 cmd2 w2 r2 now2 =
        loop_step { state := PortThreadState.Stopped, last_entry := le } cmd2 w2 r2 now2) :=
  ⟨rfl, fun _ _ _ _ => rfl⟩

/-! ## Read path (portthread.rs) -/

/-- C5 — counterexample to the claim as stated: a read returning zero
bytes (`Ok` with an empty chunk) at 20 ms after a non-empty pending
entry *does* produce an event on that tick — the coalescing flush of the
pending entry. -/
theorem C5_counterexample :
    send_receive { port_name := "p", com_port := some () }
        { timestamp := 0, rx_tx := RxTx.Rx, data := [1] } [] true (some []) 20 =
      ({ timestamp := 20, rx_tx := RxTx.Rx, data := [] },
       [SerialStateMessage.DataEvent { timestamp := 0, rx_tx := RxTx.Rx, data := [1] }]) ∧
    ([] : List Nat).length = 0 :=
  ⟨rfl, rfl⟩

/-- C5 (amended) — read path: on a Running tick with no queued bytes, a
read that times out or fails produces no event; a read returning `Ok`
with a chunk of `n ≥ 0` bytes is handed to the coalescing algorithm
rather than being emitted directly as a `DataEvent` — so a zero-byte
`Ok` read can still flush the pending entry. -/
theorem C5_read_path (pn : String) (le : HistoryEntry) (w : Bool) (now : Int)
    (bytes : List Nat) :
    send_receive { port_name := pn, com_port := some () } le [] w none now = (le, []) ∧
    send_receive { port_name := pn, com_port := some () } le [] w (some bytes) now =
      handle_received_bytes now le bytes := by
  constructor
  · simp [send_receive]
  · simp [send_receive]

/-! ## Analyzer cursor (analyzer_mode.rs) -/

/-- C6 — the claimed cursor invariant fails: `cursor_right` increments
the position unconditionally (it has no access to the payload length),
so for an entry of length 1 the cursor at 0 moves to 1 = len, leaving
`[0, len)`; `cursor_left` does saturate at 0.  This contradicts the
function's own documentation ("If the cursor is already at the right
edge of the window, this function has no effect"). -/
theorem C6_cursor_right_unbounded :
    cursor_right 0 = 1 ∧ ¬ cursor_right 0 < 1 ∧ cursor_left 0 = 0 ∧
    (∀ pos : Nat, cursor_right pos = pos + 1) :=
  ⟨rfl, by decide, rfl, fun _ => rfl⟩

/-! ## Analyzer decode engine (analyzer_mode.rs) -/

/-- C7 — decode width gating: at or past the end of the buffer no
interpretation is offered; otherwise the 8-bit tier is offered exactly
when the cursor is in range, the 16-bit tier exactly when at least 2
bytes remain, the 32-bit tier exactly when at least 4 remain, and the
64-bit tier exactly when at least 8 remain. -/
theorem C7_width_gating (e : Endianness) (data : List Nat) (pos : Nat) :
    (data.length ≤ pos → render_analyzer_items e data pos = []) ∧
    ((∃ v, AnalyzerItem.u8 v ∈ render_analyzer_items e data pos) ↔ pos < data.length) ∧
    ((∃ v, AnalyzerItem.u16 v ∈ render_analyzer_items e data pos) ↔
      pos + 2 ≤ data.length) ∧
    ((∃ v, AnalyzerItem.u32 v ∈ render_analyzer_items e data pos) ↔
      pos + 4 ≤ data.length) ∧
    ((∃ v, AnalyzerItem.u64 v ∈ render_analyzer_items e data pos) ↔
      pos + 8 ≤ data.length) := by
  unfold render_analyzer_items
  split_ifs with h0 h2 h4 h8 h2 h4 h2 h8 h2 <;>
    simp_all <;> omega

/-- C7 — witness: for the 8-byte buffer `[01 .. 08]`, cursor 8 offers
nothing, cursor 6 offers the 16-bit tier but not the 32-bit tier, and
cursor 0 offers the 64-bit tier. -/
theorem C7_width_gating_witness :
    render_analyzer_items Endianness.Big [1, 2, 3, 4, 5, 6, 7, 8] 8 = [] ∧
    (∃ v, AnalyzerItem.u16 v ∈
      render_analyzer_items Endianness.Big [1, 2, 3, 4, 5, 6, 7, 8] 6) ∧
    ¬ (∃ v, AnalyzerItem.u32 v ∈
      render_analyzer_items Endianness.Big [1, 2, 3, 4, 5, 6, 7, 8] 6) ∧
    (∃ v, AnalyzerItem.u64 v ∈
      render_analyzer_items Endianness.Big [1, 2, 3, 4, 5, 6, 7, 8] 0) := by
  refine ⟨(C7_width_gating Endianness.Big [1, 2, 3, 4, 5, 6, 7, 8] 8).1 (by decide),
    (C7_width_gating Endianness.Big [1, 2, 3, 4, 5, 6, 7, 8] 6).2.2.1.mpr (by decide),
    fun hmem => ?_,
    (C7_width_gating Endianness.Big [1, 2, 3, 4, 5, 6, 7, 8] 0).2.2.2.2.mpr (by decide)⟩
  exact absurd
    ((C7_width_gating Endianness.Big [1, 2, 3, 4, 5, 6, 7, 8] 6).2.2.2.1.mp hmem)
    (by decide)

/-- `le_bytes` as a fold, least significant byte first. -/
theorem le_bytes_eq_foldr (l : List Nat) :
    le_bytes l = l.foldr (fun b a => b % 256 + 256 * a) 0 := by
  induction l with
  | nil => rfl
  | cons b rest ih => simp [le_bytes, ih]

/-- `be_bytes` as a fold, most significant byte first. -/
theorem be_bytes_eq_foldl (l : List Nat) :
    be_bytes l = l.foldl (fun a b => b % 256 + 256 * a) 0 := by
  rw [be_bytes, le_bytes_eq_foldr, List.foldr_reverse]

/-- C8 — 16/32-bit decode endianness: whenever at least 2 (resp. 4)
bytes remain at the cursor, the offered 16-bit (resp. 32-bit) unsigned
decode is the big-endian value of those bytes (most significant byte
first) under `Big` and the little-endian value (least significant byte
first) under `Little`. -/
theorem C8_endianness_16_32 (data : List Nat) (pos : Nat) :
    (pos + 2 ≤ data.length →
      AnalyzerItem.u16 (((data.drop pos).take 2).foldl (fun a b => b % 256 + 256 * a) 0) ∈
        render_analyzer_items Endianness.Big data pos ∧
      AnalyzerItem.u16 (((data.drop pos).take 2).foldr (fun b a => b % 256 + 256 * a) 0) ∈
        render_analyzer_items Endianness.Little data pos) ∧
    (pos + 4 ≤ data.length →
      AnalyzerItem.u32 (((data.drop pos).take 4).foldl (fun a b => b % 256 + 256 * a) 0) ∈
        render_analyzer_items Endianness.Big data pos ∧
      AnalyzerItem.u32 (((data.drop pos).take 4).foldr (fun b a => b % 256 + 256 * a) 0) ∈
        render_analyzer_items Endianness.Little data pos) := by
  constructor
  · intro h
    have h0 : ¬ data.length ≤ pos := by omega
    have hc2 : (pos : Int) ≤ (data.length : Int) - 2 := by omega
    rw [← be_bytes_eq_foldl, ← le_bytes_eq_foldr]
    constructor <;> simp [render_analyzer_items, h0, hc2]
  · intro h
    have h0 : ¬ data.length ≤ pos := by omega
    have hc2 : (pos : Int) ≤ (data.length : Int) - 2 := by omega
    have hc4 : (pos : Int) ≤ (data.length : Int) - 4 := by omega
    rw [← be_bytes_eq_foldl, ← le_bytes_eq_foldr]
    constructor <;> simp [render_analyzer_items, h0, hc2, hc4]

/-- C8 — witness: the spec example `[00 00 00 01]`, cursor 0: the 32-bit
unsigned decode is 1 under `Big` and 16777216 under `Little`. -/
theorem C8_endianness_16_32_witness :
    AnalyzerItem.u32 1 ∈ render_analyzer_items Endianness.Big [0, 0, 0, 1] 0 ∧
    AnalyzerItem.u32 16777216 ∈ render_analyzer_items Endianness.Little [0, 0, 0, 1] 0 :=
  ⟨((C8_endianness_16_32 [0, 0, 0, 1] 0).2 (by decide)).1,
   ((C8_endianness_16_32 [0, 0, 0, 1] 0).2 (by decide)).2⟩

/-- C9 — fixed byte order for the 64-bit tier: with at least 8 bytes
remaining, the 64-bit interpretations (u64/i64/f64 bit pattern) are
identical under both endianness settings and equal the little-endian
value of the 8 bytes at the cursor, whereas the 16-bit decode does vary
with the toggle (witnessed by the buffer `[01 02]`). -/
theorem C9_fixed_64bit_order (data : List Nat) (pos : Nat) (h : pos + 8 ≤ data.length) :
    ((render_analyzer_items Endianness.Big data pos).filter AnalyzerItem.is64 =
      (render_analyzer_items Endianness.Little data pos).filter AnalyzerItem.is64) ∧
    ((render_analyzer_items Endianness.Big data pos).filter AnalyzerItem.is64 =
      [AnalyzerItem.u64 (le_bytes ((data.drop pos).take 8)),
       AnalyzerItem.i64 (toSigned 64 (le_bytes ((data.drop pos).take 8))),
       AnalyzerItem.f64bits (le_bytes ((data.drop pos).take 8))]) ∧
    (∃ buf : List Nat, ∃ p v w : Nat, v ≠ w ∧
      AnalyzerItem.u16 v ∈ render_analyzer_items Endianness.Big buf p ∧
      AnalyzerItem.u16 w ∈ render_analyzer_items Endianness.Little buf p) := by
  have h0 : ¬ data.length ≤ pos := by omega
  have hc2 : (pos : Int) ≤ (data.length : Int) - 2 := by omega
  have hc4 : (pos : Int) ≤ (data.length : Int) - 4 := by omega
  have hc8 : (pos : Int) ≤ (data.length : Int) - 8 := by omega
  refine ⟨?_, ?_, ⟨[1, 2], 0, 258, 513, by decide, by decide, by decide⟩⟩
  · simp [render_analyzer_items, h0, hc2, hc4, hc8, AnalyzerItem.is64]
  · simp [render_analyzer_items, h0, hc2, hc4, hc8, AnalyzerItem.is64]

/-- C9 — witness at the buffer `[01 .. 08]`, cursor 0. -/
theorem C9_fixed_64bit_order_witness :
    (render_analyzer_items Endianness.Big [1, 2, 3, 4, 5, 6, 7, 8] 0).filter
        AnalyzerItem.is64 =
      (render_analyzer_items Endianness.Little [1, 2, 3, 4, 5, 6, 7, 8] 0).filter
        AnalyzerItem.is64 :=
  (C9_fixed_64bit_order [1, 2, 3, 4, 5, 6, 7, 8] 0 (by decide)).1

/-! ## Hex input mode (interactive_mode.rs) -/

/-- For a real buffer size (`1 ≤ n < USIZE`), the wrapping loop bound
`n - 1` computed in `usize` arithmetic is the ordinary `n - 1`. -/
theorem loop_bound_eq (n : Nat) (h1 : 1 ≤ n) (h2 : n < USIZE) :
    (n + USIZE - 1) % USIZE = n - 1 := by
  have e : n + USIZE - 1 = (n - 1) + USIZE := by omega
  rw [e, Nat.add_mod_right]
  exact Nat.mod_eq_of_lt (by omega)

/-- A hex-digit byte is not the space byte. -/
theorem hex_digit_ne_space (b : Nat) (h : isHexDigitByte b = true) : b ≠ 32 := by
  intro he
  rw [he] at h
  simp [isHexDigitByte, to_digit16] at h

/-- Correctness of the conversion loop on an all-hex-digit suffix of
even length: it appends the paired bytes of the remaining digits to the
accumulator. -/
theorem apply_input_mode_loop_spec (buf : List Nat) (h1 : 1 ≤ buf.length)
    (h2 : buf.length < USIZE) :
    ∀ (k idx : Nat) (acc : List Nat), buf.length - idx ≤ k →
      (∀ b ∈ buf.drop idx, isHexDigitByte b = true) →
      (buf.length - idx) % 2 = 0 →
      apply_input_mode_loop buf acc idx = some (acc ++ pair_hex_digits (buf.drop idx)) := by
  intro k
  induction k with
  | zero =>
    intro idx acc hk _hdig _heven
    have hge : buf.length ≤ idx := by omega
    rw [apply_input_mode_loop, loop_bound_eq buf.length h1 h2, dif_neg (by omega)]
    rw [List.drop_eq_nil_of_le hge]
    simp [pair_hex_digits]
  | succ k ih =>
    intro idx acc hk hdig heven
    by_cases hg : idx < buf.length - 1
    · have hidx : idx < buf.length := by omega
      have hidx1 : idx + 1 < buf.length := by omega
      have hdrop : buf.drop idx = buf.get ⟨idx, hidx⟩ :: buf.drop (idx + 1) :=
        List.drop_eq_getElem_cons hidx
      have hdrop1 : buf.drop (idx + 1) = buf.get ⟨idx + 1, hidx1⟩ :: buf.drop (idx + 2) :=
        List.drop_eq_getElem_cons hidx1
      obtain ⟨d0, hd0⟩ : ∃ d0, to_digit16 (buf.get ⟨idx, hidx⟩) = some d0 := by
        have hmem : buf.get ⟨idx, hidx⟩ ∈ buf.drop idx := by
          rw [hdrop]; exact List.mem_cons_self _ _
        simpa [isHexDigitByte, Option.isSome_iff_exists] using hdig _ hmem
      obtain ⟨d1, hd1⟩ : ∃ d1, to_digit16 (buf.get ⟨idx + 1, hidx1⟩) = some d1 := by
        have hmem : buf.get ⟨idx + 1, hidx1⟩ ∈ buf.drop idx := by
          rw [hdrop, hdrop1]; exact List.mem_cons_of_mem _ (List.mem_cons_self _ _)
        simpa [isHexDigitByte, Option.isSome_iff_exists] using hdig _ hmem
      have hnospace : ¬ buf.get ⟨idx, hidx⟩ = 32 := by
        refine hex_digit_ne_space _ ?_
        have hmem : buf.get ⟨idx, hidx⟩ ∈ buf.drop idx := by
          rw [hdrop]; exact List.mem_cons_self _ _
        exact hdig _ hmem
      have hgetD : buf.getD (idx + 1) 0 = buf.get ⟨idx + 1, hidx1⟩ := by
        simp [List.getD_eq_getElem, hidx1]
      have hd0g : to_digit16 buf[idx] = some d0 := hd0
      have hd1g : to_digit16 buf[idx + 1] = some d1 := hd1
      rw [apply_input_mode_loop, loop_bound_eq buf.length h1 h2, dif_pos hg,
        dif_pos hidx, if_neg hnospace]
      simp only [Function.comp, hgetD, hd0, hd1]
      rw [ih (idx + 2) (acc ++ [two_hex_bytes_to_byte d0 d1]) (by omega)
        (by
          intro b hb
          exact hdig b
            (by rw [hdrop, hdrop1]; exact List.mem_cons_of_mem _ (List.mem_cons_of_mem _ hb)))
        (by omega)]
      rw [hdrop, hdrop1]
      simp [pair_hex_digits, hd0g, hd1g]
    · have hge : buf.length ≤ idx := by omega
      rw [apply_input_mode_loop, loop_bound_eq buf.length h1 h2, dif_neg (by omega)]
      rw [List.drop_eq_nil_of_le hge]
      simp [pair_hex_digits]

/-- C10 — hex input conversion: invoked on an empty send buffer the
loop bound `len − 1` wraps in `usize` arithmetic and the first indexing
is out of bounds (the error/panic branch, `none`); on a non-empty buffer
of hex digits of even length it returns the bytes obtained by pairing
consecutive digits, high nibble first. -/
theorem C10_hex_input_mode (ds : List Nat) (hne : ds ≠ [])
    (hsz : ds.length < USIZE)
    (hdig : ∀ b ∈ ds, isHexDigitByte b = true)
    (heven : ds.length % 2 = 0) :
    apply_input_mode InputMode.Hex [] = none ∧
    apply_input_mode InputMode.Hex ds = some (pair_hex_digits ds) := by
  constructor
  · show apply_input_mode_loop [] [] 0 = none
    rw [apply_input_mode_loop, dif_pos (by decide), dif_neg (by decide)]
  · have h1 : 1 ≤ ds.length := List.length_pos.mpr hne
    show apply_input_mode_loop ds [] 0 = some (pair_hex_digits ds)
    have h := apply_input_mode_loop_spec ds h1 hsz ds.length 0 []
      (by omega) (by exact hdig) (by exact heven)
    simpa using h

/-- C10 — witness: the empty buffer hits the error branch, and the
digit buffer `"12"` (bytes 49, 50) converts to the single byte 18. -/
theorem C10_hex_input_mode_witness :
    apply_input_mode InputMode.Hex [] = none ∧
    apply_input_mode InputMode.Hex [49, 50] = some [18] :=
  ⟨(C10_hex_input_mode [49, 50] (by decide) (by decide) (by decide) (by decide)).1,
   (C10_hex_input_mode [49, 50] (by decide) (by decide) (by decide) (by decide)).2⟩

end Klemme
